import Mathlib

/-!
Verification of the spread record-management service: a shallow embedding of
the storage schema (`pairs`, `spreads`, `spot_exchange_data` tables), the
filter/sort/pagination query engine, and the aggregate repository
(create / update / delete of the Spread aggregate), together with theorems
settling the specified behavioural claims.

Database state is modelled as explicit lists of rows plus an id counter
(standing in for the uuid generator).  Each service operation is a pure
function from the pre-state to a post-state paired with an `Except`-value:
a transaction either commits (new state) or aborts (the pre-state is
returned unchanged, modelling rollback).  SQL three-valued logic for
nullable columns is modelled with `Option`: a comparison against a NULL
column excludes the row.
-/

namespace PrinterApi

/-! ### Python / SQL string primitives (ASCII lower, strip, split on comma) -/

/-- ASCII lower-casing of one character, as done by Python `str.lower` and
SQLite `lower()` on ASCII input. -/
def lowerChar : Char → Char
  | 'A' => 'a' | 'B' => 'b' | 'C' => 'c' | 'D' => 'd' | 'E' => 'e'
  | 'F' => 'f' | 'G' => 'g' | 'H' => 'h' | 'I' => 'i' | 'J' => 'j'
  | 'K' => 'k' | 'L' => 'l' | 'M' => 'm' | 'N' => 'n' | 'O' => 'o'
  | 'P' => 'p' | 'Q' => 'q' | 'R' => 'r' | 'S' => 's' | 'T' => 't'
  | 'U' => 'u' | 'V' => 'v' | 'W' => 'w' | 'X' => 'x' | 'Y' => 'y'
  | 'Z' => 'z'
  | c => c

/-- Characters treated as whitespace by Python `str.strip`. -/
def isPySpace (c : Char) : Bool :=
  c = ' ' ∨ c = '\t' ∨ c = '\n' ∨ c = '\r' ∨ c = '\x0b' ∨ c = '\x0c'

def pyLowerData (l : List Char) : List Char := l.map lowerChar

/-- Python `str.lower` / SQLite `lower()` restricted to ASCII letters. -/
def pyLower (s : String) : String := ⟨pyLowerData s.data⟩

def pyStripData (l : List Char) : List Char :=
  ((l.dropWhile isPySpace).reverse.dropWhile isPySpace).reverse

/-- Python `str.strip()`. -/
def pyStrip (s : String) : String := ⟨pyStripData s.data⟩

/-- Python `str.split(",")` on the character list. -/
def splitCommaData : List Char → List (List Char)
  | [] => [[]]
  | c :: rest =>
    match splitCommaData rest with
    | [] => [[c]]
    | t :: ts => if c = ',' then [] :: t :: ts else (c :: t) :: ts

/-- The token list used by the exchange filter:
`[ex.strip().lower() for ex in exchanges.split(",") if ex.strip()]`. -/
def tokenizeData (d : List Char) : List String :=
  (((splitCommaData d).map pyStripData).filter (fun t => !t.isEmpty)).map
    (fun t => (⟨pyLowerData t⟩ : String))

def tokenize (s : String) : List String := tokenizeData s.data

/-- Python truthiness of an optional string (`None` and `""` are falsy). -/
def truthyO : Option String → Bool
  | none => false
  | some s => !(s = "")

/-! ### Storage schema (tables `pairs`, `spreads`, `spot_exchange_data`) -/

/-- A row of table `pairs` (`PairModel`). -/
structure PairRow where
  id : Nat
  base : String
  quote : String
deriving DecidableEq, Repr

/-- A row of table `spot_exchange_data` (`SpotExchangeDataModel`).  The
`exchange_kind` column is declared NOT NULL in the schema; it is modelled
as `Option String` so that an INSERT attempt that leaves it unset can be
represented (and rejected at commit time). -/
structure QuoteRow where
  id : Nat
  spread_id : Nat
  exchange_name : String
  exchange_kind : Option String
  difference_percent : Option String
  profit : Option Int
  average_price : Option Int
  volume : Option Int
  deposit_status : Option String
  withdrawal_status : Option String
  link : Option String
deriving DecidableEq, Repr

/-- A row of table `spreads` (`SpreadModel`).  Numeric columns are modelled
over `Int`. -/
structure SpreadRow where
  id : Nat
  pair_id : Nat
  contract : Option String
  network : Option String
  spread_percent : Int
  price_1 : Option Int
  price_2 : Option Int
  price_for : Option Int
  dex : Option String
  direction_from : Option String
  direction_to : Option String
  timestamp : Int
  liquidity : Option Int
  fdv : Option Int
  days_on_market : Option Int
  average_price : Option Int
deriving DecidableEq, Repr

/-- The relational store: the three tables plus the id generator. -/
structure DB where
  pairs : List PairRow
  spreads : List SpreadRow
  quotes : List QuoteRow
  nextId : Nat
deriving DecidableEq, Repr

/-! ### Domain entities (the pydantic schemas) -/

/-- Pydantic `Pair`. -/
structure Pair where
  id : Option Nat
  base : String
  quote : String
deriving DecidableEq, Repr

/-- Pydantic `SpotExchangeData` (used for both spot and futures quotes). -/
structure SpotExchangeData where
  id : Option Nat
  exchange_name : String
  exchange_kind : String
  difference_percent : Option String
  profit : Option Int
  average_price : Option Int
  volume : Option Int
  deposit_status : Option String
  withdrawal_status : Option String
  link : Option String
deriving DecidableEq, Repr

/-- Pydantic `Direction`. -/
structure Direction where
  from_exchange : Option String
  to_exchange : Option String
deriving DecidableEq, Repr

/-- Pydantic `CEXData`. -/
structure CEXData where
  spot : List SpotExchangeData
  futures : List SpotExchangeData
deriving DecidableEq, Repr

/-- Pydantic `SpreadResponse`. -/
structure SpreadResponse where
  id : Option Nat
  network : Option String
  spread_percent : Int
  pair : Pair
  contract : Option String
  dex : Option String
  price_1 : Option Int
  price_2 : Option Int
  price_for : Option Int
  direction : Direction
  timestamp : Int
  liquidity : Option Int
  fdv : Option Int
  days_on_market : Option Int
  cex_data : Option CEXData
deriving DecidableEq, Repr

/-- Pydantic `SpreadInput` (the write-side aggregate). -/
structure SpreadInput where
  network : String
  spread : Int
  contract : Option String
  dex : Option String
  price_1 : Option Int
  price_2 : Option Int
  price_for : Option Int
  pair : Pair
  direction : Direction
  timestamp : Int
  liquidity : Int
  fdv : Int
  days : Int
  cex : CEXData
deriving DecidableEq, Repr

/-- Pydantic `SpreadsResponseWithCount`. -/
structure SpreadsResponseWithCount where
  spreads : List SpreadResponse
  total_count : Nat
deriving DecidableEq, Repr

/-- Pydantic `FilterParams`.  `sort_by` and `order_by` are modelled as
optional free strings, matching the `Optional[...]` signature of
`_normalize_sort_parameter`. -/
structure FilterParams where
  limit : Nat := 100
  offset : Nat := 0
  network : Option String := none
  exchanges : Option String := none
  from_spread : Option Int := none
  to_spread : Option Int := none
  from_liquidity : Option Int := none
  to_liquidity : Option Int := none
  from_fdv : Option Int := none
  to_fdv : Option Int := none
  sort_by : Option String := some "topSpread"
  order_by : Option String := some "asc"
deriving DecidableEq, Repr

/-! ### Sort normalization (`_normalize_sort_parameter`) -/

inductive SortCol where
  | spread_percent
  | liquidity
  | fdv
  | days_on_market
deriving DecidableEq, Repr

inductive SortDir where
  | asc
  | desc
deriving DecidableEq, Repr

/-- `_normalize_sort_parameter`: maps `sort_by` to one of four numeric
columns (anything else silently defaults to `spread_percent`) and requires
`order_by` to be exactly `"desc"` or `"asc"`, raising `ValueError`
otherwise. -/
def _normalize_sort_parameter (sort_by order_by : Option String) :
    Except String (SortCol × SortDir) :=
  let col : SortCol :=
    match sort_by with
    | some "liquidity" => .liquidity
    | some "sortFdv" => .fdv
    | some "sortDays" => .days_on_market
    | _ => .spread_percent
  if order_by = some "desc" then .ok (col, .desc)
  else if order_by = some "asc" then .ok (col, .asc)
  else .error "Invalid order_by"

/-- The value of the sort column on a row (`none` is SQL NULL). -/
def sortKey (col : SortCol) (s : SpreadRow) : Option Int :=
  match col with
  | .spread_percent => some s.spread_percent
  | .liquidity => s.liquidity
  | .fdv => s.fdv
  | .days_on_market => s.days_on_market

/-- SQLite ordering on a nullable column: NULLs sort first ascending. -/
def optLe : Option Int → Option Int → Bool
  | none, _ => true
  | some _, none => false
  | some a, some b => a ≤ b

def sortLe (col : SortCol) (dir : SortDir) (a b : SpreadRow) : Bool :=
  match dir with
  | .asc => optLe (sortKey col a) (sortKey col b)
  | .desc => optLe (sortKey col b) (sortKey col a)

def insertSorted (le : SpreadRow → SpreadRow → Bool) (x : SpreadRow) :
    List SpreadRow → List SpreadRow
  | [] => [x]
  | y :: ys => if le x y then x :: y :: ys else y :: insertSorted le x ys

/-- `ORDER BY` over the selected rows (one concrete realisation of the
sort; tie order among equal keys is storage-dependent in SQL). -/
def sortRows (col : SortCol) (dir : SortDir) (l : List SpreadRow) :
    List SpreadRow :=
  l.foldr (insertSorted (sortLe col dir)) []

/-! ### Query predicate of `get_spreads` -/

/-- The exchange-membership predicate added by `get_spreads` when
`filter_params.exchanges` is truthy and the token list is non-empty:
`SpreadModel.spot_exchanges.any(lower(exchange_name) IN tokens)`.  The
`spot_exchanges` relationship carries the primaryjoin restriction
`exchange_kind == 'spot'`, which the generated EXISTS subquery includes. -/
def exchangesCond (db : DB) (fp : FilterParams) (s : SpreadRow) : Bool :=
  match fp.exchanges with
  | none => true
  | some e =>
    if e = "" then true
    else
      let ts := tokenize e
      if ts.isEmpty then true
      else db.quotes.any fun q =>
        q.spread_id == s.id && q.exchange_kind == some "spot" &&
          ts.contains (pyLower q.exchange_name)

/-- `SpreadModel.network == filter_params.network` (NULL network never
matches). -/
def networkCond (fp : FilterParams) (s : SpreadRow) : Bool :=
  match fp.network with
  | none => true
  | some n => if n = "" then true else s.network == some n

/-- An inclusive lower bound on a nullable column under SQL three-valued
logic: a NULL value fails the comparison. -/
def geCond (bound : Option Int) (v : Option Int) : Bool :=
  match bound with
  | none => true
  | some b =>
    match v with
    | none => false
    | some x => b ≤ x

/-- An inclusive upper bound on a nullable column (NULL fails). -/
def leCond (bound : Option Int) (v : Option Int) : Bool :=
  match bound with
  | none => true
  | some b =>
    match v with
    | none => false
    | some x => x ≤ b

/-- The full WHERE-predicate accumulated on `base_query`. -/
def spreadPredicate (db : DB) (fp : FilterParams) (s : SpreadRow) : Bool :=
  exchangesCond db fp s && networkCond fp s &&
    geCond fp.from_spread (some s.spread_percent) &&
    leCond fp.to_spread (some s.spread_percent) &&
    geCond fp.from_liquidity s.liquidity &&
    leCond fp.to_liquidity s.liquidity &&
    geCond fp.from_fdv s.fdv &&
    leCond fp.to_fdv s.fdv

/-- The rows selected by `base_query` (phase 1 of the query engine). -/
def matching_spreads (db : DB) (fp : FilterParams) : List SpreadRow :=
  db.spreads.filter (spreadPredicate db fp)

/-- The id page: ordered matching ids with `OFFSET`/`LIMIT` applied. -/
def page_ids (db : DB) (fp : FilterParams) (col : SortCol) (dir : SortDir) :
    List Nat :=
  ((((sortRows col dir (matching_spreads db fp)).map SpreadRow.id).drop
      fp.offset).take fp.limit)

/-- Phase 3: hydrate the paged ids (`WHERE id IN ids ORDER BY sort`). -/
def hydrate (db : DB) (ids : List Nat) (col : SortCol) (dir : SortDir) :
    List SpreadRow :=
  sortRows col dir (db.spreads.filter (fun s => ids.contains s.id))

/-! ### Mapping layer (`_map_to_entity`) -/

/-- `SpotExchangeData.model_validate` on a stored quote row.  Committed
rows always carry a kind (NOT NULL); the default covers the unreachable
NULL case. -/
def quoteToEntity (q : QuoteRow) : SpotExchangeData :=
  { id := some q.id
    exchange_name := q.exchange_name
    exchange_kind := q.exchange_kind.getD ""
    difference_percent := q.difference_percent
    profit := q.profit
    average_price := q.average_price
    volume := q.volume
    deposit_status := q.deposit_status
    withdrawal_status := q.withdrawal_status
    link := q.link }

/-- The loaded `spot_exchanges` collection of a spread row (primaryjoin:
same `spread_id`, `exchange_kind == 'spot'`). -/
def spotRowsOf (db : DB) (sid : Nat) : List QuoteRow :=
  db.quotes.filter fun q => q.spread_id == sid && q.exchange_kind == some "spot"

/-- The loaded `futures_exchanges` collection of a spread row. -/
def futuresRowsOf (db : DB) (sid : Nat) : List QuoteRow :=
  db.quotes.filter fun q =>
    q.spread_id == sid && q.exchange_kind == some "futures"

/-- The loaded `pair_rel` of a spread row as a `Pair` entity. -/
def pairOf (db : DB) (s : SpreadRow) : Pair :=
  match db.pairs.find? (fun p => p.id == s.pair_id) with
  | some p => { id := some p.id, base := p.base, quote := p.quote }
  | none => { id := none, base := "", quote := "" }

/-- `SpreadService._map_to_entity`: storage rows to the output aggregate.
`cex_data` is `none` exactly when both child collections are empty. -/
def _map_to_entity (db : DB) (s : SpreadRow) : SpreadResponse :=
  let spot := (spotRowsOf db s.id).map quoteToEntity
  let futures := (futuresRowsOf db s.id).map quoteToEntity
  { id := some s.id
    network := s.network
    spread_percent := s.spread_percent
    pair := pairOf db s
    direction :=
      { from_exchange := s.direction_from, to_exchange := s.direction_to }
    contract := s.contract
    price_1 := s.price_1
    price_2 := s.price_2
    price_for := s.price_for
    dex := s.dex
    timestamp := s.timestamp
    liquidity := s.liquidity
    fdv := s.fdv
    days_on_market := s.days_on_market
    cex_data :=
      if spot.isEmpty && futures.isEmpty then none
      else some { spot := spot, futures := futures } }

/-! ### Read operations -/

/-- Lexicographic comparison by code point (Python string `<`). -/
def strLtB : List Char → List Char → Bool
  | [], [] => false
  | [], _ :: _ => true
  | _ :: _, [] => false
  | a :: as, b :: bs =>
    if a.toNat < b.toNat then true
    else if b.toNat < a.toNat then false
    else strLtB as bs

def insertSortedStr (x : String) : List String → List String
  | [] => [x]
  | y :: ys =>
    if !strLtB y.data x.data then x :: y :: ys else y :: insertSortedStr x ys

/-- Python `sorted` on strings (lexicographic by code point). -/
def sortStrings (l : List String) : List String :=
  l.foldr insertSortedStr []

/-- `SpreadService.get_exchanges`: SQL DISTINCT over `exchange_name`
(all quote rows — the table holds both kinds), then
`if name and name.strip(): add(name.strip())` into a set, then
`sorted([i.lower() for i in set])`. -/
def get_exchanges (db : DB) : List String :=
  let distinctNames := ((db.quotes.map QuoteRow.exchange_name).dedup)
  let stripped :=
    ((distinctNames.filter fun n => !(n = "") && !(pyStrip n = "")).map
        pyStrip).dedup
  sortStrings (stripped.map pyLower)

/-- `scalar_one_or_none()` over a row filter: `none` for zero rows, the
row for exactly one, `MultipleResultsFound` otherwise. -/
def oneOrNone {α : Type} (l : List α) : Except String (Option α) :=
  match l with
  | [] => .ok none
  | [x] => .ok (some x)
  | _ => .error "MultipleResultsFound"

/-- `SpreadService.get_spreads`: predicate build, count over the filtered
subquery, id page with offset/limit, early return on an empty page, then
hydration re-sorted by the same key. -/
def get_spreads (db : DB) (fp : FilterParams) :
    Except String SpreadsResponseWithCount :=
  match
    (if truthyO fp.sort_by && truthyO fp.order_by then
      (_normalize_sort_parameter fp.sort_by fp.order_by).map (fun _ => ())
    else .ok ()) with
  | .error e => .error e
  | .ok _ =>
    match _normalize_sort_parameter fp.sort_by fp.order_by with
    | .error e => .error e
    | .ok (col, dir) =>
      if (page_ids db fp col dir).isEmpty then
        .ok { spreads := [],
              total_count := (matching_spreads db fp).length }
      else
        .ok { spreads := (hydrate db (page_ids db fp col dir) col dir).map
                (_map_to_entity db)
              total_count := (matching_spreads db fp).length }

/-- `SpreadService.get_spread_by_id`. -/
def get_spread_by_id (db : DB) (sid : Nat) :
    Except String (Option SpreadResponse) :=
  match oneOrNone (db.spreads.filter fun s => s.id == sid) with
  | .error e => .error e
  | .ok none => .ok none
  | .ok (some s) => .ok (some (_map_to_entity db s))

/-! ### Write operations -/

/-- Build the new child rows for one write, assigning generated ids.  The
kind assigned to each row is given by `kindOf` because `create_spread`
copies `exchange_kind` from the input while `update_spread` leaves the
column unset. -/
def buildQuotes (startId sid : Nat) (kindOf : SpotExchangeData → Option String) :
    List SpotExchangeData → List QuoteRow × Nat
  | [] => ([], startId)
  | e :: es =>
    let row : QuoteRow :=
      { id := startId
        spread_id := sid
        exchange_name := e.exchange_name
        exchange_kind := kindOf e
        difference_percent := e.difference_percent
        profit := e.profit
        average_price := e.average_price
        volume := e.volume
        deposit_status := e.deposit_status
        withdrawal_status := e.withdrawal_status
        link := e.link }
    let (rows, nid) := buildQuotes (startId + 1) sid kindOf es
    (row :: rows, nid)

/-- NOT NULL check on `exchange_kind` applied when the transaction
commits the new child rows. -/
def commitCheck (qs : List QuoteRow) : Bool :=
  qs.all fun q => q.exchange_kind.isSome

/-- Pair upsert shared by create and update: exact `(base, quote)` lookup;
on absence INSERT a new `pairs` row and flush, obtaining its generated id.
Returns the (possibly extended) state and the pair id. -/
def upsertPair (db : DB) (base quote : String) :
    Except String (DB × Nat) :=
  match oneOrNone (db.pairs.filter fun p => p.base == base && p.quote == quote)
    with
  | .error e => .error e
  | .ok (some p) => .ok (db, p.id)
  | .ok none =>
    let p : PairRow := { id := db.nextId, base := base, quote := quote }
    .ok ({ db with pairs := db.pairs ++ [p], nextId := db.nextId + 1 }, p.id)

/-- The `SpreadModel` row constructed by `create_spread` from the scalar
input fields. -/
def createRow (pid sid : Nat) (inp : SpreadInput) : SpreadRow :=
  { id := sid
    pair_id := pid
    contract := inp.contract
    network := some inp.network
    spread_percent := inp.spread
    price_1 := inp.price_1
    price_2 := inp.price_2
    price_for := inp.price_for
    dex := inp.dex
    direction_from := inp.direction.from_exchange
    direction_to := inp.direction.to_exchange
    timestamp := inp.timestamp
    liquidity := some inp.liquidity
    fdv := some inp.fdv
    days_on_market := some inp.days
    average_price := none }

/-- The child rows written by `create_spread`: `exchange_kind` is copied
from the input explicitly. -/
def createQuotes (db1 : DB) (inp : SpreadInput) : List QuoteRow × Nat :=
  buildQuotes (db1.nextId + 1) db1.nextId (fun e => some e.exchange_kind)
    (inp.cex.spot ++ inp.cex.futures)

/-- The committed post-state of a successful create. -/
def commitCreate (db1 : DB) (pid : Nat) (inp : SpreadInput) : DB :=
  { db1 with
      spreads := db1.spreads ++ [createRow pid db1.nextId inp]
      quotes := db1.quotes ++ (createQuotes db1 inp).1
      nextId := (createQuotes db1 inp).2 }

/-- `SpreadService.create_spread`.  Returns the post-state and the mapped
response; an aborted transaction returns the pre-state (rollback). -/
def create_spread (db : DB) (inp : SpreadInput) :
    DB × Except String SpreadResponse :=
  match upsertPair db inp.pair.base inp.pair.quote with
  | .error e => (db, .error e)
  | .ok (db1, pid) =>
    if commitCheck (createQuotes db1 inp).1 then
      (commitCreate db1 pid inp,
        .ok (_map_to_entity (commitCreate db1 pid inp)
          (createRow pid db1.nextId inp)))
    else (db, .error "IntegrityError: NOT NULL constraint failed")

/-- `SpreadService.update_spread`: whole-record replace.  Finds the row,
re-upserts the pair, overwrites every scalar field, clears both child
collections (delete-orphan flush) and appends the input's children —
without setting `exchange_kind`, which stays NULL on the new rows.  The
transaction commits only if the NOT NULL check passes; otherwise the
pre-state is returned (rollback). -/
def update_spread (db : DB) (sid : Nat) (inp : SpreadInput) :
    DB × Except String (Option SpreadResponse) :=
  match oneOrNone (db.spreads.filter fun s => s.id == sid) with
  | .error e => (db, .error e)
  | .ok none => (db, .ok none)
  | .ok (some s) =>
    match upsertPair db inp.pair.base inp.pair.quote with
    | .error e => (db, .error e)
    | .ok (db1, pid) =>
      let s' : SpreadRow :=
        { s with
            pair_id := pid
            network := some inp.network
            spread_percent := inp.spread
            direction_from := inp.direction.from_exchange
            direction_to := inp.direction.to_exchange
            timestamp := inp.timestamp
            price_1 := inp.price_1
            price_2 := inp.price_2
            price_for := inp.price_for
            contract := inp.contract
            dex := inp.dex
            liquidity := some inp.liquidity
            fdv := some inp.fdv
            days_on_market := some inp.days }
      let dbCleared : DB :=
        { db1 with
            spreads := db1.spreads.map (fun t => if t.id == sid then s' else t)
            quotes := db1.quotes.filter fun q =>
              !(q.spread_id == sid &&
                (q.exchange_kind == some "spot" ||
                  q.exchange_kind == some "futures")) }
      let (newQs, nid) :=
        buildQuotes dbCleared.nextId sid (fun _ => none)
          (inp.cex.spot ++ inp.cex.futures)
      if commitCheck newQs then
        let db2 : DB :=
          { dbCleared with quotes := dbCleared.quotes ++ newQs, nextId := nid }
        (db2, .ok (some (_map_to_entity db2 s')))
      else (db, .error "IntegrityError: NOT NULL constraint failed")

/-- `SpreadService.delete_spread`: remove the spread row with cascade to
both child collections (`delete-orphan` on `spot_exchanges` and
`futures_exchanges`); `pairs` rows are untouched.  Absent id returns
`false`. -/
def delete_spread (db : DB) (sid : Nat) : DB × Except String Bool :=
  match oneOrNone (db.spreads.filter fun s => s.id == sid) with
  | .error e => (db, .error e)
  | .ok none => (db, .ok false)
  | .ok (some _) =>
    ({ db with
        spreads := db.spreads.filter (fun s => !(s.id == sid))
        quotes := db.quotes.filter fun q =>
          !(q.spread_id == sid &&
            (q.exchange_kind == some "spot" ||
              q.exchange_kind == some "futures")) },
      .ok true)

/-- The set of spreads matched by the filter predicate, as ids (phase 1 of
the query, before pagination). -/
def matching_ids (db : DB) (fp : FilterParams) : List Nat :=
  (matching_spreads db fp).map SpreadRow.id

/-- Two optional filter strings that differ only in letter case. -/
def optCaseEq : Option String → Option String → Prop
  | none, none => True
  | some s, some t => pyLower s = pyLower t
  | _, _ => False

/-- Relates a stored quote row to a copy whose `exchange_name` differs
only in letter case. -/
def quoteCaseEq (q q' : QuoteRow) : Prop :=
  q' = { q with exchange_name := q'.exchange_name } ∧
    pyLower q'.exchange_name = pyLower q.exchange_name

/-! ### Concrete fixtures used by witnesses and counterexamples -/

/-- A sample spread row. -/
def sampleSpread (sid pid : Nat) : SpreadRow :=
  { id := sid, pair_id := pid, contract := none, network := some "ETH",
    spread_percent := 1, price_1 := none, price_2 := none, price_for := none,
    dex := none, direction_from := none, direction_to := none, timestamp := 0,
    liquidity := some 5, fdv := some 6, days_on_market := some 7,
    average_price := none }

/-- A sample quote row. -/
def sampleQuote (qid sid : Nat) (nm : String) (kd : Option String) : QuoteRow :=
  { id := qid, spread_id := sid, exchange_name := nm, exchange_kind := kd,
    difference_percent := none, profit := none, average_price := none,
    volume := none, deposit_status := none, withdrawal_status := none,
    link := none }

/-- A sample quote entity for write inputs. -/
def sampleEntry (nm kd : String) : SpotExchangeData :=
  { id := none, exchange_name := nm, exchange_kind := kd,
    difference_percent := none, profit := none, average_price := none,
    volume := none, deposit_status := none, withdrawal_status := none,
    link := none }

/-- A sample write input with the given child collections. -/
def sampleInput (cex : CEXData) : SpreadInput :=
  { network := "ETH", spread := 2, contract := none, dex := none,
    price_1 := none, price_2 := none, price_for := none,
    pair := { id := none, base := "ETH", quote := "USDT" },
    direction := { from_exchange := none, to_exchange := none },
    timestamp := 0, liquidity := 10, fdv := 11, days := 12, cex := cex }

/-- A state whose only quote rows are two spot names differing in case. -/
def dbCaseDup : DB :=
  { pairs := [⟨0, "ETH", "USDT"⟩], spreads := [sampleSpread 1 0],
    quotes := [sampleQuote 2 1 "Binance" (some "spot"),
               sampleQuote 3 1 "binance" (some "futures")],
    nextId := 4 }

/-- A state whose only quote row is a futures-kind quote named binance. -/
def dbFuturesOnly : DB :=
  { pairs := [⟨0, "ETH", "USDT"⟩], spreads := [sampleSpread 1 0],
    quotes := [sampleQuote 2 1 "binance" (some "futures")], nextId := 3 }

/-- A state with one spread owning two spot quotes. -/
def dbTwoSpot : DB :=
  { pairs := [⟨0, "ETH", "USDT"⟩], spreads := [sampleSpread 1 0],
    quotes := [sampleQuote 2 1 "binance" (some "spot"),
               sampleQuote 3 1 "bybit" (some "spot")],
    nextId := 4 }

/-- The empty state. -/
def dbEmpty : DB := { pairs := [], spreads := [], quotes := [], nextId := 0 }

/-- The hydrated response for the spread stored in `dbTwoSpot`. -/
def respTwoSpot : SpreadResponse := _map_to_entity dbTwoSpot (sampleSpread 1 0)

/-- A default filter specification. -/
def fpDefault : FilterParams := {}

/-- A filter specification selecting the binance exchange. -/
def fpEx : FilterParams := { exchanges := some "binance" }

/-- A write input with no child quotes. -/
def inpE : SpreadInput := sampleInput { spot := [], futures := [] }

/-- State after creating one spread from `inpE` in the empty state. -/
def dbE1 : DB := (create_spread dbEmpty inpE).1

/-- State after creating a second spread from `inpE`. -/
def dbE2 : DB := (create_spread dbE1 inpE).1

/-- Response of the first create. -/
def rE1 : SpreadResponse :=
  ((create_spread dbEmpty inpE).2.toOption).getD respTwoSpot

/-- Response of the second create. -/
def rE2 : SpreadResponse :=
  ((create_spread dbE1 inpE).2.toOption).getD respTwoSpot

/-- The page returned for `dbTwoSpot` under the default filter. -/
def pageOne : SpreadsResponseWithCount :=
  { spreads := [respTwoSpot], total_count := 1 }

/-! ### Lemmas on the string primitives -/

theorem lowerChar_comma_iff (c : Char) : lowerChar c = ',' ↔ c = ',' := by
  unfold lowerChar
  split <;> simp_all

theorem isPySpace_lowerChar (c : Char) :
    isPySpace (lowerChar c) = isPySpace c := by
  unfold lowerChar
  split <;> first | rfl | decide

theorem splitCommaData_ne_nil (d : List Char) : splitCommaData d ≠ [] := by
  cases d with
  | nil => simp [splitCommaData]
  | cons c rest =>
    simp only [splitCommaData]
    cases splitCommaData rest with
    | nil => simp
    | cons t ts =>
      by_cases hc : c = ',' <;> simp [hc]

theorem pyStripData_lower_comm (t : List Char) :
    pyLowerData (pyStripData t) = pyStripData (pyLowerData t) := by
  have hps : (isPySpace ∘ lowerChar) = isPySpace := by
    funext c
    exact isPySpace_lowerChar c
  simp [pyLowerData, pyStripData, List.dropWhile_map, ← List.map_reverse, hps]

theorem pyStripData_lower_congr {t t' : List Char}
    (h : pyLowerData t = pyLowerData t') :
    pyLowerData (pyStripData t) = pyLowerData (pyStripData t') := by
  rw [pyStripData_lower_comm, pyStripData_lower_comm, h]

theorem splitCommaData_lower_congr {d d' : List Char}
    (h : pyLowerData d = pyLowerData d') :
    List.Forall₂ (fun t t' => pyLowerData t = pyLowerData t')
      (splitCommaData d) (splitCommaData d') := by
  induction d generalizing d' with
  | nil =>
    have hd' : d' = [] := by
      have := h.symm
      simpa [pyLowerData] using this
    subst hd'
    simp [splitCommaData]
  | cons c rest ih =>
    cases d' with
    | nil => simp [pyLowerData] at h
    | cons c' rest' =>
      simp only [pyLowerData, List.map_cons, List.cons.injEq] at h
      obtain ⟨hc, hrest⟩ := h
      have hF := ih hrest
      simp only [splitCommaData]
      rcases hsp : splitCommaData rest with _ | ⟨t, ts⟩
      · exact absurd hsp (splitCommaData_ne_nil rest)
      rcases hsp' : splitCommaData rest' with _ | ⟨t', ts'⟩
      · exact absurd hsp' (splitCommaData_ne_nil rest')
      rw [hsp, hsp'] at hF
      rcases hF with _ | ⟨hrel, htl⟩
      by_cases hcc : c = ','
      · have hcc' : c' = ',' :=
          (lowerChar_comma_iff c').mp (by rw [← hc, hcc]; decide)
        simp only [hcc, hcc', if_pos rfl]
        exact List.Forall₂.cons (by simp [pyLowerData])
          (List.Forall₂.cons hrel htl)
      · have hcc' : c' ≠ ',' := fun h =>
          hcc ((lowerChar_comma_iff c).mp (by rw [hc, h]; decide))
        simp only [if_neg hcc, if_neg hcc']
        exact List.Forall₂.cons (by simpa [pyLowerData, hc] using hrel) htl

theorem tokens_of_forall₂ {L L' : List (List Char)}
    (h : List.Forall₂ (fun t t' => pyLowerData t = pyLowerData t') L L') :
    ((L.map pyStripData).filter (fun t => !t.isEmpty)).map
        (fun t => (⟨pyLowerData t⟩ : String)) =
      ((L'.map pyStripData).filter (fun t => !t.isEmpty)).map
        (fun t => (⟨pyLowerData t⟩ : String)) := by
  induction h with
  | nil => rfl
  | cons hrel htl ih =>
    rename_i t t' L₁ L₁'
    have hst : pyLowerData (pyStripData t) = pyLowerData (pyStripData t') :=
      pyStripData_lower_congr hrel
    have hlen : (pyStripData t).length = (pyStripData t').length := by
      have h1 : (pyStripData t).length = (pyLowerData (pyStripData t)).length :=
        by simp [pyLowerData]
      have h2 :
          (pyStripData t').length = (pyLowerData (pyStripData t')).length :=
        by simp [pyLowerData]
      rw [h1, h2, hst]
    have hemp : (pyStripData t).isEmpty = (pyStripData t').isEmpty := by
      rcases ht : pyStripData t with _ | _ <;>
        rcases ht' : pyStripData t' with _ | _ <;>
          simp_all [ht, ht']
    by_cases he : (pyStripData t).isEmpty
    · have he' : (pyStripData t').isEmpty := by rw [← hemp]; exact he
      simp [he, he', ih]
    · have he' : ¬ (pyStripData t').isEmpty = true := by rw [← hemp]; exact he
      simp [he, he', ih, hst]

/-- The token list used by the exchange filter only depends on the
lower-cased filter string: case changes leave it untouched. -/
theorem tokenize_congr {s s' : String} (h : pyLower s = pyLower s') :
    tokenize s = tokenize s' := by
  have hd : pyLowerData s.data = pyLowerData s'.data := by
    have := congrArg String.data h
    simpa [pyLower] using this
  exact tokens_of_forall₂ (splitCommaData_lower_congr hd)

/-! ### Generic lemmas about the query-engine helpers -/

theorem insertSorted_perm (le : SpreadRow → SpreadRow → Bool) (x : SpreadRow)
    (l : List SpreadRow) : (insertSorted le x l).Perm (x :: l) := by
  induction l with
  | nil => exact List.Perm.refl _
  | cons y ys ih =>
    unfold insertSorted
    by_cases h : le x y
    · simp [h]
    · simp only [h, if_neg]
      exact (List.Perm.cons y ih).trans (List.Perm.swap x y ys)

theorem sortRows_perm (col : SortCol) (dir : SortDir) (l : List SpreadRow) :
    (sortRows col dir l).Perm l := by
  induction l with
  | nil => exact List.Perm.refl _
  | cons x xs ih =>
    have h1 := insertSorted_perm (sortLe col dir) x (sortRows col dir xs)
    exact h1.trans (List.Perm.cons x ih)

theorem sortRows_length (col : SortCol) (dir : SortDir) (l : List SpreadRow) :
    (sortRows col dir l).length = l.length :=
  (sortRows_perm col dir l).length_eq

theorem commitCheck_some_kind (sid : Nat) (es : List SpotExchangeData) :
    ∀ st, commitCheck
      (buildQuotes st sid (fun e => some e.exchange_kind) es).1 = true := by
  induction es with
  | nil => intro st; rfl
  | cons e es ih =>
    intro st
    rcases hb : buildQuotes (st + 1) sid (fun e => some e.exchange_kind) es
      with ⟨rows, nid⟩
    have := ih (st + 1)
    rw [hb] at this
    simp [buildQuotes, hb, commitCheck] at this ⊢
    exact this

/-! ### C9: the nested CEX aggregate collapses to null exactly when both
child collections are empty -/

/-- C9: for a stored spread fetched by id, the output aggregate has
`cex_data = none` exactly when both the spot-kind and futures-kind child
collections keyed by that spread are empty; otherwise the aggregate is
present with the child rows regrouped into spot and futures lists by
kind. -/
theorem cex_data_null_iff_no_children (db : DB) (sid : Nat)
    (resp : SpreadResponse) (h : get_spread_by_id db sid = .ok (some resp)) :
    (resp.cex_data = none ↔
      (spotRowsOf db sid = [] ∧ futuresRowsOf db sid = [])) ∧
    (∀ c, resp.cex_data = some c →
      c.spot = (spotRowsOf db sid).map quoteToEntity ∧
      c.futures = (futuresRowsOf db sid).map quoteToEntity) := by
  rcases hfl : db.spreads.filter (fun s => s.id == sid) with _ | ⟨s, tl⟩
  · simp [get_spread_by_id, oneOrNone, hfl] at h
  rcases tl with _ | ⟨s2, tl2⟩
  · have hs : s ∈ db.spreads.filter (fun s => s.id == sid) := by
      rw [hfl]; exact List.mem_cons_self _ _
    have hsid : s.id = sid := by
      have := (List.mem_filter.mp hs).2
      simpa using this
    simp only [get_spread_by_id, oneOrNone, hfl] at h
    have hresp : resp = _map_to_entity db s := by
      cases h; rfl
    subst hresp
    simp only [_map_to_entity, hsid]
    refine ⟨?_, ?_⟩ <;>
      rcases hsp : spotRowsOf db sid with _ | ⟨a, as⟩ <;>
        rcases hfu : futuresRowsOf db sid with _ | ⟨b, bs⟩ <;>
          simp
  · simp [get_spread_by_id, oneOrNone, hfl] at h

/-- Witness for C9 at a concrete state: the spread of `dbTwoSpot` has two
spot children, so its aggregate is present. -/
theorem cex_data_null_iff_no_children_witness :
    (respTwoSpot.cex_data = none ↔
      (spotRowsOf dbTwoSpot 1 = [] ∧ futuresRowsOf dbTwoSpot 1 = [])) ∧
    (∀ c, respTwoSpot.cex_data = some c →
      c.spot = (spotRowsOf dbTwoSpot 1).map quoteToEntity ∧
      c.futures = (futuresRowsOf dbTwoSpot 1).map quoteToEntity) :=
  cex_data_null_iff_no_children dbTwoSpot 1 respTwoSpot (by rfl)

/-! ### C8: malformed sort direction fails fast and is the only hard error
in query construction -/

/-- C8: `_normalize_sort_parameter` raises exactly when `order_by` is not
the literal string `asc` or `desc` (never silently defaulting), and
`get_spreads` raises exactly under the same condition — the only hard
error of query construction. -/
theorem order_by_fails_fast :
    (∀ sb ob : Option String,
      (∃ e, _normalize_sort_parameter sb ob = .error e) ↔
        ¬(ob = some "asc" ∨ ob = some "desc")) ∧
    (∀ (db : DB) (fp : FilterParams),
      (∃ e, get_spreads db fp = .error e) ↔
        ¬(fp.order_by = some "asc" ∨ fp.order_by = some "desc")) := by
  have hnorm : ∀ sb ob : Option String,
      (∃ e, _normalize_sort_parameter sb ob = .error e) ↔
        ¬(ob = some "asc" ∨ ob = some "desc") := by
    intro sb ob
    unfold _normalize_sort_parameter
    split_ifs with h1 h2
    · simp [h1]
    · simp [h2]
    · simp [h1, h2]
  refine ⟨hnorm, ?_⟩
  intro db fp
  by_cases hv : fp.order_by = some "asc" ∨ fp.order_by = some "desc"
  · have hok : ∃ cd,
        _normalize_sort_parameter fp.sort_by fp.order_by = .ok cd := by
      rcases hv with h | h <;> simp [_normalize_sort_parameter, h]
    rcases hok with ⟨cd, hcd⟩
    simp only [get_spreads, hcd]
    rcases cd with ⟨col, dir⟩
    by_cases hc : (truthyO fp.sort_by && truthyO fp.order_by) = true <;>
      simp [hc, hv, Except.map] <;> split <;> simp
  · have herr : _normalize_sort_parameter fp.sort_by fp.order_by =
        .error "Invalid order_by" := by
      push_neg at hv
      simp [_normalize_sort_parameter, hv.1, hv.2]
    simp only [get_spreads, herr]
    by_cases hc : (truthyO fp.sort_by && truthyO fp.order_by) = true <;>
      simp [hc, hv, Except.map]

/-! ### C10: the client-supplied pair id is ignored by create -/

/-- C10: `create_spread` reads only `(base, quote)` from the input's pair;
two inputs differing only in `pair.id` produce identical results (state
and response). -/
theorem create_spread_ignores_pair_id (db : DB) (inp : SpreadInput)
    (pid : Option Nat) :
    create_spread db { inp with pair := { inp.pair with id := pid } } =
      create_spread db inp := by
  cases inp with
  | mk network spread contract dex p1 p2 pfor pair direction ts liq fdv
      days cex =>
    cases pair
    rfl

/-! ### C4 (code bug): `get_exchanges` deduplicates before lower-casing -/

/-- C4: the code deduplicates exchange names *before* lower-casing them,
so two stored names differing only in letter case survive as duplicates
in the output — contradicting the specified sorted, de-duplicated,
lower-cased list.  Evaluated at a concrete failing state. -/
theorem get_exchanges_case_duplicate :
    get_exchanges dbCaseDup = ["binance", "binance"] ∧
    ¬ (get_exchanges dbCaseDup).Nodup := by
  constructor
  · rfl
  · decide

/-! ### C1 (code bug): update's replacement children violate NOT NULL -/

/-- C1: `update_spread` builds the replacement child rows without
`exchange_kind` (unlike `create_spread`), so committing the update of a
spread whose input carries any quote fails the NOT NULL constraint; the
transaction aborts and the previous children survive unchanged — the
children are never replaced by the input's set. -/
theorem update_spread_not_null_abort :
    update_spread dbTwoSpot 1
        (sampleInput { spot := [], futures := [sampleEntry "okx" "futures"] }) =
      (dbTwoSpot, .error "IntegrityError: NOT NULL constraint failed") ∧
    (spotRowsOf dbTwoSpot 1).length = 2 := by
  constructor
  · rfl
  · rfl

/-- Witness for C8: an invalid sort direction makes `get_spreads` raise. -/
theorem order_by_fails_fast_witness :
    ∃ e, get_spreads dbEmpty { order_by := some "upside" } = .error e :=
  (order_by_fails_fast.2 dbEmpty { order_by := some "upside" }).mpr (by simp)

/-! ### C5: delete removes the spread and both child collections, spares
pairs, and signals absence with false -/

/-- C5: for a present id `delete_spread` removes the spread row and every
child quote row of either kind keyed by it, never touches the `pairs`
table, and returns true; for an absent id it returns false and leaves the
state unchanged. -/
theorem delete_spread_spec (db : DB) (sid : Nat)
    (hnd : (db.spreads.map SpreadRow.id).Nodup) :
    (delete_spread db sid).1.pairs = db.pairs ∧
    (delete_spread db sid).2 = .ok (db.spreads.any fun s => s.id == sid) ∧
    ((db.spreads.any fun s => s.id == sid) = false →
      (delete_spread db sid).1 = db) ∧
    ((db.spreads.any fun s => s.id == sid) = true →
      ((delete_spread db sid).1.spreads.all fun s => !(s.id == sid)) = true ∧
      ((delete_spread db sid).1.quotes.all fun q =>
        !(q.spread_id == sid && (q.exchange_kind == some "spot" ||
          q.exchange_kind == some "futures"))) = true) := by
  rcases hfl : db.spreads.filter (fun s => s.id == sid) with _ | ⟨s, tl⟩
  · have hany : (db.spreads.any fun s => s.id == sid) = false := by
      rw [List.any_eq_false]
      intro x hx
      have := List.filter_eq_nil_iff.mp hfl x hx
      simpa using this
    refine ⟨by simp [delete_spread, oneOrNone, hfl], ?_, ?_, ?_⟩
    · simp [delete_spread, oneOrNone, hfl, hany]
    · intro _
      simp [delete_spread, oneOrNone, hfl]
    · intro hcontra
      rw [hany] at hcontra
      cases hcontra
  rcases tl with _ | ⟨s2, tl2⟩
  · have hsmem : s ∈ db.spreads.filter (fun s => s.id == sid) := by
      rw [hfl]; exact List.mem_cons_self _ _
    have hany : (db.spreads.any fun s => s.id == sid) = true := by
      rw [List.any_eq_true]
      exact ⟨s, List.mem_of_mem_filter hsmem, (List.mem_filter.mp hsmem).2⟩
    refine ⟨by simp [delete_spread, oneOrNone, hfl], ?_, ?_, ?_⟩
    · simp [delete_spread, oneOrNone, hfl, hany]
    · intro hcontra
      rw [hany] at hcontra
      cases hcontra
    · intro _
      constructor
      · rw [List.all_eq_true]
        intro x hx
        simp only [delete_spread, oneOrNone, hfl] at hx
        exact (List.mem_filter.mp hx).2
      · rw [List.all_eq_true]
        intro q hq
        simp only [delete_spread, oneOrNone, hfl] at hq
        exact (List.mem_filter.mp hq).2
  · exfalso
    have hsub : (db.spreads.filter (fun s => s.id == sid)).Sublist db.spreads :=
      List.filter_sublist _
    have hnds : ((db.spreads.filter (fun s => s.id == sid)).map
        SpreadRow.id).Nodup := hnd.sublist (hsub.map _)
    have h1 : s ∈ db.spreads.filter (fun s => s.id == sid) := by
      rw [hfl]; exact List.mem_cons_self _ _
    have h2 : s2 ∈ db.spreads.filter (fun s => s.id == sid) := by
      rw [hfl]; exact List.mem_cons_of_mem _ (List.mem_cons_self _ _)
    have hid1 : s.id = sid := by
      simpa using (List.mem_filter.mp h1).2
    have hid2 : s2.id = sid := by
      simpa using (List.mem_filter.mp h2).2
    rw [hfl] at hnds
    simp [hid1, hid2] at hnds

/-- Witness for C5 at a concrete state. -/
theorem delete_spread_spec_witness :
    (delete_spread dbTwoSpot 1).1.pairs = dbTwoSpot.pairs ∧
    (delete_spread dbTwoSpot 1).2 =
      .ok (dbTwoSpot.spreads.any fun s => s.id == 1) :=
  ⟨(delete_spread_spec dbTwoSpot 1 (by decide)).1,
   (delete_spread_spec dbTwoSpot 1 (by decide)).2.1⟩

/-! ### C3: page length is bounded by limit and the count ignores
limit/offset -/

theorem matching_spreads_page_invariant (db : DB) (fp : FilterParams)
    (l o : Nat) :
    matching_spreads db { fp with limit := l, offset := o } =
      matching_spreads db fp := by
  cases fp
  rfl

theorem get_spreads_ok_total (db : DB) (fp : FilterParams)
    (resp : SpreadsResponseWithCount) (h : get_spreads db fp = .ok resp) :
    resp.total_count = (matching_spreads db fp).length := by
  unfold get_spreads at h
  split at h
  · cases h
  split at h
  · cases h
  split at h
  · cases h
    rfl
  · cases h
    rfl

theorem length_filter_mem_le (l : List SpreadRow) (ids : List Nat)
    (hnd : (l.map SpreadRow.id).Nodup) :
    (l.filter fun s => ids.contains s.id).length ≤ ids.length := by
  have hsub : (l.filter fun s => ids.contains s.id).Sublist l :=
    List.filter_sublist _
  have hFnd : ((l.filter fun s => ids.contains s.id).map
      SpreadRow.id).Nodup := hnd.sublist (hsub.map _)
  have hsubset : ∀ x ∈ (l.filter fun s => ids.contains s.id).map
      SpreadRow.id, x ∈ ids := by
    intro x hx
    rcases List.mem_map.mp hx with ⟨s, hsF, rfl⟩
    have := (List.mem_filter.mp hsF).2
    simpa using this
  calc (l.filter fun s => ids.contains s.id).length
      = ((l.filter fun s => ids.contains s.id).map SpreadRow.id).length :=
        (List.length_map _ _).symm
    _ = ((l.filter fun s => ids.contains s.id).map
          SpreadRow.id).toFinset.card :=
        (List.toFinset_card_of_nodup hFnd).symm
    _ ≤ ids.toFinset.card := by
        apply Finset.card_le_card
        intro x hx
        rw [List.mem_toFinset] at hx ⊢
        exact hsubset x hx
    _ ≤ ids.length := ids.toFinset_card_le

/-- C3: the returned page never exceeds `limit`, and `total_count` is the
number of spread rows satisfying the filter predicate — unchanged under
any other `limit`/`offset`. -/
theorem get_spreads_pagination (db : DB) (fp : FilterParams)
    (resp : SpreadsResponseWithCount)
    (hnd : (db.spreads.map SpreadRow.id).Nodup)
    (h : get_spreads db fp = .ok resp) :
    resp.spreads.length ≤ fp.limit ∧
    resp.total_count = (matching_spreads db fp).length ∧
    (∀ (l o : Nat) (resp' : SpreadsResponseWithCount),
      get_spreads db { fp with limit := l, offset := o } = .ok resp' →
      resp'.total_count = resp.total_count) := by
  refine ⟨?_, get_spreads_ok_total db fp resp h, ?_⟩
  · unfold get_spreads at h
    split at h
    · cases h
    split at h
    · cases h
    rename_i col dir hcd
    split at h
    · cases h
      exact Nat.zero_le _
    · cases h
      simp only [List.length_map, hydrate, sortRows_length]
      calc (db.spreads.filter fun s =>
            (page_ids db fp col dir).contains s.id).length
          ≤ (page_ids db fp col dir).length :=
            length_filter_mem_le _ _ hnd
        _ ≤ fp.limit := by
            simp only [page_ids]
            exact List.length_take_le _ _
  · intro l o resp' h'
    rw [get_spreads_ok_total db _ resp' h',
      get_spreads_ok_total db fp resp h, matching_spreads_page_invariant]

/-- Witness for C3 at a concrete state and filter. -/
theorem get_spreads_pagination_witness :
    pageOne.spreads.length ≤ fpDefault.limit ∧
    pageOne.total_count = (matching_spreads dbTwoSpot fpDefault).length :=
  ⟨(get_spreads_pagination dbTwoSpot fpDefault pageOne (by decide)
      (by rfl)).1,
   (get_spreads_pagination dbTwoSpot fpDefault pageOne (by decide)
      (by rfl)).2.1⟩

/-! ### C6: pair resolution by (base, quote) with flush-before-reference -/

theorem pairOf_id (db : DB) (s : SpreadRow) (p : PairRow)
    (hp : p ∈ db.pairs) (hid : p.id = s.pair_id) :
    (pairOf db s).id = some s.pair_id := by
  unfold pairOf
  rcases hf : db.pairs.find? (fun p => p.id == s.pair_id) with _ | p'
  · exfalso
    have := List.find?_eq_none.mp hf p hp
    simp [hid] at this
  · rw [hf]
    have := List.find?_some hf
    simp only [beq_iff_eq] at this
    simp [this]

/-- After a successful pair upsert, the post-state holds exactly one pair
row matching the key, carrying the returned id; this persists through any
state with the same pairs table. -/
theorem upsertPair_found (db : DB) (b q : String) (dbA : DB) (pid : Nat)
    (h : upsertPair db b q = .ok (dbA, pid)) :
    ∃ p : PairRow,
      dbA.pairs.filter (fun p => p.base == b && p.quote == q) = [p] ∧
      p.id = pid ∧ p.base = b ∧ p.quote = q ∧ p ∈ dbA.pairs := by
  unfold upsertPair at h
  rcases hfl : db.pairs.filter (fun p => p.base == b && p.quote == q)
    with _ | ⟨p, tl⟩
  · rw [hfl] at h
    simp only [oneOrNone, Except.ok.injEq, Prod.mk.injEq] at h
    obtain ⟨hA, hpid⟩ := h
    refine ⟨⟨db.nextId, b, q⟩, ?_, by simp [← hpid], rfl, rfl, ?_⟩
    · rw [← hA]
      simp [List.filter_append, hfl]
    · rw [← hA]
      simp
  · rcases tl with _ | ⟨p2, tl2⟩
    · rw [hfl] at h
      simp only [oneOrNone, Except.ok.injEq, Prod.mk.injEq] at h
      obtain ⟨hA, hpid⟩ := h
      have hpm : p ∈ db.pairs.filter (fun p => p.base == b && p.quote == q) := by
        rw [hfl]; exact List.mem_cons_self _ _
      have hkey := (List.mem_filter.mp hpm).2
      simp only [Bool.and_eq_true, beq_iff_eq] at hkey
      exact ⟨p, by rw [← hA]; exact hfl, hpid, hkey.1, hkey.2,
        by rw [← hA]; exact List.mem_of_mem_filter hpm⟩
    · rw [hfl] at h
      simp [oneOrNone] at h

/-- C6: `create_spread` resolves the pair by exact `(base, quote)`; the
created spread row references a pair row present in the committed state,
and a second create with the same `(base, quote)` resolves to the very
same pair id. -/
theorem create_spread_reuses_pair
    (db db1 db2 : DB) (inp1 inp2 : SpreadInput) (r1 r2 : SpreadResponse)
    (h1 : create_spread db inp1 = (db1, .ok r1))
    (h2 : create_spread db1 inp2 = (db2, .ok r2))
    (hb : inp2.pair.base = inp1.pair.base)
    (hq : inp2.pair.quote = inp1.pair.quote) :
    r1.pair.id.isSome ∧ r2.pair.id = r1.pair.id ∧
    ∃ p ∈ db1.pairs, some p.id = r1.pair.id ∧
      p.base = inp1.pair.base ∧ p.quote = inp1.pair.quote ∧
      ∃ s ∈ db1.spreads, some s.id = r1.id ∧ s.pair_id = p.id := by
  unfold create_spread at h1
  split at h1
  · injection h1 with _ hbad
    exact absurd hbad (by simp)
  rename_i dbA pid hup
  split at h1
  case isFalse =>
    injection h1 with _ hbad
    exact absurd hbad (by simp)
  injection h1 with hdb hr
  injection hr with hr
  subst hdb
  subst hr
  obtain ⟨p, hfilter, hpid, hpb, hpq, hpmem⟩ :=
    upsertPair_found db inp1.pair.base inp1.pair.quote dbA pid hup
  have hpairs1 : (commitCreate dbA pid inp1).pairs = dbA.pairs := rfl
  have hr1pair : (_map_to_entity (commitCreate dbA pid inp1)
      (createRow pid dbA.nextId inp1)).pair.id = some pid := by
    have := pairOf_id (commitCreate dbA pid inp1)
      (createRow pid dbA.nextId inp1) p (by rw [hpairs1]; exact hpmem)
      (by simpa [createRow] using hpid)
    simpa [_map_to_entity, createRow] using this
  have hup2 : upsertPair (commitCreate dbA pid inp1) inp1.pair.base
      inp1.pair.quote = .ok (commitCreate dbA pid inp1, p.id) := by
    unfold upsertPair
    rw [hpairs1, hfilter]
    rfl
  unfold create_spread at h2
  rw [hb, hq] at h2
  split at h2
  · rename_i e' hupbad
    rw [hup2] at hupbad
    cases hupbad
  rename_i dbB pidB hupB
  rw [hup2] at hupB
  injection hupB with hupB
  injection hupB with hB1 hB2
  subst hB1
  subst hB2
  split at h2
  case isFalse =>
    injection h2 with _ hbad
    exact absurd hbad (by simp)
  injection h2 with hdb2 hr2
  injection hr2 with hr2
  subst hr2
  have hr2pair : (_map_to_entity
      (commitCreate (commitCreate dbA pid inp1) p.id inp2)
      (createRow p.id (commitCreate dbA pid inp1).nextId inp2)).pair.id =
        some p.id := by
    have := pairOf_id
      (commitCreate (commitCreate dbA pid inp1) p.id inp2)
      (createRow p.id (commitCreate dbA pid inp1).nextId inp2) p
      (by exact hpmem) (by simp [createRow])
    simpa [_map_to_entity, createRow] using this
  refine ⟨by simp [hr1pair], by rw [hr2pair, hr1pair, hpid], ?_⟩
  refine ⟨p, by rw [hpairs1]; exact hpmem, by rw [hr1pair, hpid], hpb, hpq,
    ⟨createRow pid dbA.nextId inp1, ?_, ?_, ?_⟩⟩
  · show createRow pid dbA.nextId inp1 ∈
      dbA.spreads ++ [createRow pid dbA.nextId inp1]
    exact List.mem_append_right _ (List.mem_singleton_self _)
  · rfl
  · simp [createRow, hpid]

/-- Witness for C6: two creates of the same `(ETH, USDT)` pair starting
from the empty state share one pair row. -/
theorem create_spread_reuses_pair_witness :
    rE1.pair.id.isSome ∧ rE2.pair.id = rE1.pair.id ∧
    ∃ p ∈ dbE1.pairs, some p.id = rE1.pair.id ∧
      p.base = inpE.pair.base ∧ p.quote = inpE.pair.quote ∧
      ∃ s ∈ dbE1.spreads, some s.id = rE1.id ∧ s.pair_id = p.id :=
  create_spread_reuses_pair dbEmpty dbE1 dbE2 inpE inpE rE1 rE2
    (by rfl) (by rfl) rfl rfl

/-! ### C2 (corrected): exchange filtering sees only spot-kind rows -/

/-- Counterexample to C2 as stated: a spread whose single quote row is a
futures-kind `binance` is *not* selected by `exchanges=binance`, although
it has an exchange-quote row (of kind futures) whose lower-cased name is
in the requested set. -/
theorem exchange_filter_ignores_futures :
    get_spreads dbFuturesOnly { exchanges := some "binance" } =
      .ok { spreads := [], total_count := 0 } ∧
    (dbFuturesOnly.quotes.any fun q => q.spread_id == 1 &&
      q.exchange_kind == some "futures" &&
      (tokenize "binance").contains (pyLower q.exchange_name)) = true ∧
    (dbFuturesOnly.spreads.any fun s => s.id == 1) = true :=
  ⟨rfl, rfl, rfl⟩

/-- With only the exchanges filter set, the WHERE-predicate of
`get_spreads` is exactly "has at least one spot-kind quote row whose
lower-cased name is among the requested tokens". -/
theorem spreadPredicate_exchanges_only (db : DB) (fp : FilterParams)
    (e : String) (hex : fp.exchanges = some e) (htok : tokenize e ≠ [])
    (hnet : fp.network = none)
    (hq1 : fp.from_spread = none) (hq2 : fp.to_spread = none)
    (hq3 : fp.from_liquidity = none) (hq4 : fp.to_liquidity = none)
    (hq5 : fp.from_fdv = none) (hq6 : fp.to_fdv = none) (s : SpreadRow) :
    spreadPredicate db fp s = true ↔
      ∃ q ∈ db.quotes, q.spread_id = s.id ∧
        q.exchange_kind = some "spot" ∧
        pyLower q.exchange_name ∈ tokenize e := by
  have he : e ≠ "" := fun h0 => htok (by rw [h0]; rfl)
  have hie : (tokenize e).isEmpty ≠ true := by
    intro h0
    exact htok (List.isEmpty_iff.mp h0)
  simp only [spreadPredicate, networkCond, geCond, leCond, hnet, hq1, hq2,
    hq3, hq4, hq5, hq6, Bool.and_true]
  simp only [exchangesCond, hex, if_neg he, if_neg hie]
  simp [List.any_eq_true, List.elem_iff, beq_iff_eq, and_assoc]

/-- C2 (amended): with a non-empty exchanges token list and no other
filters, `get_spreads` selects exactly the spreads that have at least one
*spot-kind* exchange-quote row whose lower-cased name is in the requested
set (futures-kind rows are invisible to the filter), and never duplicates
a parent row. -/
theorem get_spreads_exchanges_spot_only
    (db : DB) (fp : FilterParams) (resp : SpreadsResponseWithCount)
    (e : String)
    (hnd : (db.spreads.map SpreadRow.id).Nodup)
    (hex : fp.exchanges = some e)
    (htok : tokenize e ≠ [])
    (hnet : fp.network = none)
    (hq1 : fp.from_spread = none) (hq2 : fp.to_spread = none)
    (hq3 : fp.from_liquidity = none) (hq4 : fp.to_liquidity = none)
    (hq5 : fp.from_fdv = none) (hq6 : fp.to_fdv = none)
    (hoff : fp.offset = 0)
    (hlim : (matching_spreads db fp).length ≤ fp.limit)
    (h : get_spreads db fp = .ok resp) :
    (resp.spreads.map SpreadResponse.id).Nodup ∧
    ∀ s ∈ db.spreads,
      (some s.id ∈ resp.spreads.map SpreadResponse.id ↔
        ∃ q ∈ db.quotes, q.spread_id = s.id ∧
          q.exchange_kind = some "spot" ∧
          pyLower q.exchange_name ∈ tokenize e) := by
  have hchar := spreadPredicate_exchanges_only db fp e hex htok hnet
    hq1 hq2 hq3 hq4 hq5 hq6
  have hinj := List.inj_on_of_nodup_map hnd
  unfold get_spreads at h
  split at h
  · cases h
  split at h
  · cases h
  rename_i col dir hcd
  have hids_eq : page_ids db fp col dir =
      (sortRows col dir (matching_spreads db fp)).map SpreadRow.id := by
    simp only [page_ids, hoff, List.drop_zero]
    apply List.take_of_length_le
    rw [List.length_map, sortRows_length]
    exact hlim
  have hperm : (page_ids db fp col dir).Perm
      ((matching_spreads db fp).map SpreadRow.id) := by
    rw [hids_eq]
    exact (sortRows_perm col dir _).map _
  have hmem_ids : ∀ s ∈ db.spreads,
      (s.id ∈ page_ids db fp col dir ↔ spreadPredicate db fp s = true) := by
    intro s hs
    rw [hperm.mem_iff]
    constructor
    · intro hx
      rcases List.mem_map.mp hx with ⟨t, htM, hts⟩
      have htS : t ∈ db.spreads := List.mem_of_mem_filter htM
      have hteq : t = s := hinj htS hs hts
      subst hteq
      exact (List.mem_filter.mp htM).2
    · intro hp
      exact List.mem_map_of_mem _ (List.mem_filter.mpr ⟨hs, hp⟩)
  split at h
  · rename_i hempty
    cases h
    have hids_nil : page_ids db fp col dir = [] := List.isEmpty_iff.mp hempty
    refine ⟨by simp, ?_⟩
    intro s hs
    simp only [List.map_nil, List.not_mem_nil, false_iff]
    intro hq
    have hp := (hchar s).mpr hq
    have := (hmem_ids s hs).mpr hp
    rw [hids_nil] at this
    cases this
  · rename_i hnonempty
    cases h
    have hF : db.spreads.filter
        (fun s => (page_ids db fp col dir).contains s.id) =
        matching_spreads db fp := by
      apply List.filter_congr
      intro s hs
      apply Bool.coe_iff_coe.mp
      rw [List.elem_iff]
      exact hmem_ids s hs
    have hrespids : ((hydrate db (page_ids db fp col dir) col dir).map
        (_map_to_entity db)).map SpreadResponse.id =
        (sortRows col dir (matching_spreads db fp)).map
          (fun r => some r.id) := by
      rw [List.map_map]
      show (hydrate db (page_ids db fp col dir) col dir).map
        (fun r => some r.id) = _
      rw [hydrate, hF]
    have hMnodup : ((matching_spreads db fp).map
        (fun r => (some r.id : Option Nat))).Nodup := by
      have h1 : ((matching_spreads db fp).map SpreadRow.id).Nodup :=
        hnd.sublist ((List.filter_sublist _).map _)
      have h2 : (matching_spreads db fp).map (fun r => (some r.id : Option Nat))
          = ((matching_spreads db fp).map SpreadRow.id).map some := by
        rw [List.map_map]
        rfl
      rw [h2]
      exact h1.map (Option.some_injective _)
    constructor
    · simp only [hrespids]
      exact (((sortRows_perm col dir (matching_spreads db fp)).map
        (fun r => (some r.id : Option Nat))).symm).nodup hMnodup
    · intro s hs
      simp only [hrespids]
      rw [((sortRows_perm col dir (matching_spreads db fp)).map
        (fun r => (some r.id : Option Nat))).mem_iff]
      rw [← hchar s]
      constructor
      · intro hx
        rcases List.mem_map.mp hx with ⟨t, htM, hts⟩
        have htS : t ∈ db.spreads := List.mem_of_mem_filter htM
        have hts' : t.id = s.id := by
          simpa using hts
        have hteq : t = s := hinj htS hs hts'
        subst hteq
        exact (List.mem_filter.mp htM).2
      · intro hp
        exact List.mem_map_of_mem _ (List.mem_filter.mpr ⟨hs, hp⟩)

/-- Witness for the amended C2 at a concrete state: filtering `dbTwoSpot`
by `exchanges=binance` returns its one spread exactly once. -/
theorem get_spreads_exchanges_spot_only_witness :
    (pageOne.spreads.map SpreadResponse.id).Nodup ∧
    get_spreads dbTwoSpot fpEx = .ok pageOne :=
  ⟨(get_spreads_exchanges_spot_only dbTwoSpot fpEx pageOne "binance"
      (by decide) rfl (by decide) rfl rfl rfl rfl rfl rfl rfl rfl
      (by decide) (by rfl)).1,
    by rfl⟩

/-! ### C7: exchange-name filtering is case-insensitive -/

/-- The EXISTS-predicate over the quotes table is invariant under case
changes of the stored names, for a fixed token list. -/
theorem quotes_any_case_congr (qs qs' : List QuoteRow)
    (hq : List.Forall₂ quoteCaseEq qs qs') (sid : Nat) (ts : List String) :
    (qs'.any fun q => q.spread_id == sid && q.exchange_kind == some "spot" &&
        ts.contains (pyLower q.exchange_name)) =
      (qs.any fun q => q.spread_id == sid && q.exchange_kind == some "spot" &&
        ts.contains (pyLower q.exchange_name)) := by
  induction hq with
  | nil => rfl
  | cons hrel htl ih =>
    rename_i q q' l l'
    obtain ⟨hcopy, hlow⟩ := hrel
    simp only [List.any_cons, ih]
    have h1 : q'.spread_id = q.spread_id := by rw [hcopy]
    have h2 : q'.exchange_kind = q.exchange_kind := by rw [hcopy]
    rw [h1, h2, hlow]

/-- Case changes in the filter string leave its truthiness and its token
list unchanged. -/
theorem exchangesCond_case_congr (db : DB) (qs' : List QuoteRow)
    (fp : FilterParams) (e e' : Option String)
    (hq : List.Forall₂ quoteCaseEq db.quotes qs')
    (he : optCaseEq e e') (s : SpreadRow) :
    exchangesCond { db with quotes := qs' } { fp with exchanges := e' } s =
      exchangesCond db { fp with exchanges := e } s := by
  rcases e with _ | se <;> rcases e' with _ | se'
  · rfl
  · exact absurd he (by simp [optCaseEq])
  · exact absurd he (by simp [optCaseEq])
  · have hlow : pyLower se = pyLower se' := he
    have htok : tokenize se' = tokenize se := (tokenize_congr hlow).symm
    have hemp : (se' = "") ↔ (se = "") := by
      constructor <;> intro h0 <;> subst h0
      · have : pyLowerData se.data = [] := congrArg String.data hlow
        have : se.data = [] := by
          simpa [pyLowerData] using this
        cases se
        simp_all
      · have : pyLowerData se'.data = [] := congrArg String.data hlow.symm
        have : se'.data = [] := by
          simpa [pyLowerData] using this
        cases se'
        simp_all
    simp only [exchangesCond]
    by_cases h0 : se' = ""
    · rw [if_pos h0, if_pos (hemp.mp h0)]
    · rw [if_neg h0, if_neg (fun hh => h0 (hemp.mpr hh))]
      rw [htok]
      by_cases hti : (tokenize se).isEmpty
      · rw [if_pos hti, if_pos hti]
      · rw [if_neg hti, if_neg hti]
        exact quotes_any_case_congr db.quotes qs' hq s.id (tokenize se)

/-- C7: the set of spreads matched by the exchange filter is invariant
under changing the letter case of the stored `exchange_name` values
and/or of the filter string, since both sides are lower-cased before
comparison. -/
theorem exchange_filter_case_insensitive (db : DB) (qs' : List QuoteRow)
    (fp : FilterParams) (e e' : Option String)
    (hq : List.Forall₂ quoteCaseEq db.quotes qs')
    (he : optCaseEq e e') :
    matching_ids { db with quotes := qs' } { fp with exchanges := e' } =
      matching_ids db { fp with exchanges := e } := by
  unfold matching_ids matching_spreads
  show ((db.spreads.filter _).map _) = ((db.spreads.filter _).map _)
  congr 1
  apply List.filter_congr
  intro s _
  have hex := exchangesCond_case_congr db qs' fp e e' hq he s
  simp only [spreadPredicate, hex]
  rfl

/-- Witness for C7: upper-casing both the stored names of `dbTwoSpot` and
the filter string leaves the matched id set unchanged. -/
theorem exchange_filter_case_insensitive_witness :
    matching_ids
        { dbTwoSpot with
            quotes := [sampleQuote 2 1 "BINANCE" (some "spot"),
                       sampleQuote 3 1 "BYBIT" (some "spot")] }
        { fpDefault with exchanges := some "BINANCE" } =
      matching_ids dbTwoSpot { fpDefault with exchanges := some "binance" } :=
  exchange_filter_case_insensitive dbTwoSpot
    [sampleQuote 2 1 "BINANCE" (some "spot"),
     sampleQuote 3 1 "BYBIT" (some "spot")]
    fpDefault (some "binance") (some "BINANCE")
    (List.Forall₂.cons ⟨by decide, by decide⟩
      (List.Forall₂.cons ⟨by decide, by decide⟩ List.Forall₂.nil))
    (show pyLower "binance" = pyLower "BINANCE" by decide)

end PrinterApi
